import Mathlib

/-!
Shallow embedding of `check-dependencies.js` (the security-alerts revision of
the dependency monitor script).  Network effects are abstracted as functions
passed in: the npm registry becomes `String → Option NpmInfo` (the resolved
value of `getNpmPackageInfo`), the GitHub manifest fetch becomes
`String → Option PackageJson` (the resolved value of `getPackageJson`, `none`
on any caught failure), and the Dependabot alert fetch becomes
`String → List SecurityAlert` (the resolved value of `getSecurityAlerts`,
already degraded to `[]` on any caught failure).  JSON manifests are embedded
as association lists with string keys, in object iteration order.
-/

namespace DepMonitor

/-- Result object resolved by `getNpmPackageInfo` on a 200 response:
latest = `pkg["dist-tags"].latest`, plus description and homepage. -/
structure NpmInfo where
  latest : String
  description : Option String
  homepage : Option String
deriving DecidableEq, Repr

/-- One entry pushed onto `outdated` by `checkOutdatedPackages`. -/
structure DependencyRecord where
  package : String
  current : String
  latest : String
  description : Option String
deriving DecidableEq, Repr

/-- The two dependency groups of a fetched `package.json`, as association
lists in object-key iteration order. -/
structure PackageJson where
  dependencies : List (String × String)
  devDependencies : List (String × String)
deriving DecidableEq, Repr

/-- One element of the list returned by `getSecurityAlerts`, built from a
Dependabot alert.  `cve` and `firstPatchedVersion` may be absent. -/
structure SecurityAlert where
  package : String
  severity : String
  summary : String
  description : String
  cve : Option String
  vulnerableVersionRange : String
  firstPatchedVersion : Option String
  ghsaId : String
  url : String
deriving DecidableEq, Repr

/-- The object returned by `checkOutdatedPackages`: repo name, outdated
records, and the merged dependency count. -/
structure CheckResult where
  repo : String
  outdated : List DependencyRecord
  totalDependencies : Nat
deriving DecidableEq, Repr

/-- The per-repository object pushed onto `results` by `main`: the
`checkOutdatedPackages` result spread together with `securityAlerts`. -/
structure RepoReport where
  repo : String
  outdated : List DependencyRecord
  totalDependencies : Nat
  securityAlerts : List SecurityAlert
deriving DecidableEq, Repr

/-- First value bound to key `n`, mirroring JavaScript property access on an
object built from these entries (object keys are unique, so first = only). -/
def lookupVal (l : List (String × String)) (n : String) : Option String :=
  (l.find? (fun p => p.1 = n)).map Prod.snd

/-- The object spread merging `packageJson.dependencies` with
`packageJson.devDependencies`: keys of the first object keep their position
but take the value from the second object when overridden; keys only in the
second object are appended in order. -/
def mergeDeps (deps devDeps : List (String × String)) : List (String × String) :=
  deps.map (fun p => (p.1, (lookupVal devDeps p.1).getD p.2)) ++
    devDeps.filter (fun q => (lookupVal deps q.1).isNone)

/-- `currentVersion.replace(/^[\x5e~]/, "")`: the regex matches a single
leading caret or tilde, and only the first match is replaced. -/
def cleanVersion (v : String) : String :=
  match v.data with
  | c :: rest => if c = '^' ∨ c = '~' then String.mk rest else v
  | [] => v

/-- The record `checkOutdatedPackages` pushes for one `[name, currentVersion]`
entry, or `none` when the `if (info && info.latest !== cleanVersion)` guard
fails. -/
def recordOf (registry : String → Option NpmInfo) (p : String × String) :
    Option DependencyRecord :=
  match registry p.1 with
  | some info =>
      if info.latest ≠ cleanVersion p.2 then
        some ⟨p.1, p.2, info.latest, info.description⟩
      else none
  | none => none

/-- `checkOutdatedPackages(packageJson, repoName)`, with the awaited registry
lookups abstracted as `registry`.  The for-loop over `Object.entries` pushing
onto `outdated` is a left fold appending to an accumulator. -/
def checkOutdatedPackages (registry : String → Option NpmInfo)
    (packageJson : PackageJson) (repoName : String) : CheckResult :=
  let dependencies := mergeDeps packageJson.dependencies packageJson.devDependencies
  let outdated := dependencies.foldl
    (fun acc p =>
      match recordOf registry p with
      | some d => acc ++ [d]
      | none => acc) []
  { repo := repoName
    outdated := outdated
    totalDependencies := dependencies.length }

/-- What arrives for one registry lookup: either a response with a status
code (whose 200-body is the parsed registry document), or a socket error
(the `.on("error", ...)` path).  JSON parsing of a well-formed registry
document is taken as given. -/
inductive RegistryResponse where
  | response (status : Nat) (body : NpmInfo)
  | netError
deriving DecidableEq, Repr

/-- `getNpmPackageInfo`: resolves the parsed info on a 200 status, resolves
`null` on any other status, and resolves `null` on a network error.  The
promise executor never calls `reject`, so the embedding is a total function
into `Option`. -/
def getNpmPackageInfo : RegistryResponse → Option NpmInfo
  | .response status body => if status = 200 then some body else none
  | .netError => none

/-- `results.flatMap(r => r.securityAlerts.filter(a => a.severity === "critical" || a.severity === "high"))`
from `sendEmail`. -/
def criticalSecurityIssues (results : List RepoReport) : List SecurityAlert :=
  results.flatMap (fun r =>
    r.securityAlerts.filter (fun a => a.severity = "critical" ∨ a.severity = "high"))

/-- `results.reduce((sum, r) => sum + r.securityAlerts.length, 0)`. -/
def totalVulnerabilities (results : List RepoReport) : Nat :=
  results.foldl (fun sum r => sum + r.securityAlerts.length) 0

/-- `results.reduce((sum, r) => sum + r.outdated.length, 0)`. -/
def totalOutdated (results : List RepoReport) : Nat :=
  results.foldl (fun sum r => sum + r.outdated.length) 0

/-- The subject chosen by `sendEmail`: initialised to the monthly-report
default and overridden by the first matching branch of the if/else chain. -/
def emailSubject (results : List RepoReport) : String :=
  if (criticalSecurityIssues results).length > 0 then
    "🚨 SECURITY ALERT: " ++ toString (criticalSecurityIssues results).length ++
      " Critical Vulnerabilities"
  else if totalVulnerabilities results > 0 then
    "⚠️ Security Update: " ++ toString (totalVulnerabilities results) ++
      " Vulnerabilities Found"
  else if totalOutdated results > 0 then
    "📦 " ++ toString (totalOutdated results) ++ " Package Updates Available"
  else "📦 Monthly Dependency Report"

/-- Subject of the short email sent on the all-clean branch of `main`. -/
def allCleanSubject : String := "✅ Dependency Check: All Secure & Up To Date"

/-- The resolved external world of one run: the configured repo list, the
per-repo outcomes of `getPackageJson` (`none` on any caught failure) and
`getSecurityAlerts` (already `[]` on any caught failure), the registry
snapshot, the outcome of the Claude API call, and whether each
`transporter.sendMail` resolves. -/
structure Env where
  repos : List String
  manifest : String → Option PackageJson
  alerts : String → List SecurityAlert
  registry : String → Option NpmInfo
  claude : Except String String
  shortMailOk : Bool
  fullMailOk : Bool

/-- The body of the per-repository loop in `main`: fetch the manifest and
alerts, run the comparator when the manifest is present, and otherwise still
push a report with empty `outdated` and zero `totalDependencies`. -/
def processRepo (env : Env) (repo : String) : RepoReport :=
  let securityAlerts := env.alerts repo
  match env.manifest repo with
  | some packageJson =>
      let outdated := checkOutdatedPackages env.registry packageJson repo
      { repo := outdated.repo
        outdated := outdated.outdated
        totalDependencies := outdated.totalDependencies
        securityAlerts := securityAlerts }
  | none =>
      { repo := repo
        outdated := []
        totalDependencies := 0
        securityAlerts := securityAlerts }

/-- The `results` array after the loop in `main`. -/
def runResults (env : Env) : List RepoReport :=
  env.repos.map (processRepo env)

/-- Observable outcome of one run: the aggregated results, whether the
Claude API was called, the subjects of the emails that were dispatched, and
the process exit code. -/
structure RunTrace where
  results : List RepoReport
  aiCalled : Bool
  emailsSent : List String
  exitCode : Nat
deriving DecidableEq, Repr

/-- The tail of `main` after the loop, plus the top-level
`main().catch(... process.exit(1))` handler: branch on both totals being
zero; on the clean branch send only the short email; otherwise call Claude
(a rejection aborts the run before any email) and then `sendEmail`.  A
`sendMail` rejection also reaches the catch handler. -/
def runMain (env : Env) : RunTrace :=
  let results := runResults env
  if totalVulnerabilities results = 0 ∧ totalOutdated results = 0 then
    if env.shortMailOk then
      { results := results, aiCalled := false, emailsSent := [allCleanSubject], exitCode := 0 }
    else
      { results := results, aiCalled := false, emailsSent := [], exitCode := 1 }
  else
    match env.claude with
    | .error _ =>
        { results := results, aiCalled := true, emailsSent := [], exitCode := 1 }
    | .ok _ =>
        if env.fullMailOk then
          { results := results, aiCalled := true,
            emailsSent := [emailSubject results], exitCode := 0 }
        else
          { results := results, aiCalled := true, emailsSent := [], exitCode := 1 }

/-! Concrete sample inputs, used to evaluate the embedded definitions. -/

/-- Registry document for the `left-pad` scenario of the spec. -/
def sampleInfo : NpmInfo :=
  { latest := "1.3.0", description := some "String left pad", homepage := none }

/-- Registry snapshot knowing only `left-pad`. -/
def sampleRegistry : String → Option NpmInfo :=
  fun n => if n = "left-pad" then some sampleInfo else none

/-- Manifest declaring a single regular dependency `left-pad` at `^1.0.0`. -/
def samplePackageJson : PackageJson :=
  { dependencies := [("left-pad", "^1.0.0")], devDependencies := [] }

/-- A critical-severity Dependabot alert. -/
def sampleCriticalAlert : SecurityAlert :=
  { package := "lodash"
    severity := "critical"
    summary := "Prototype pollution in lodash"
    description := "Versions of lodash before 4.17.12 are vulnerable."
    cve := some "CVE-2019-10744"
    vulnerableVersionRange := "< 4.17.12"
    firstPatchedVersion := some "4.17.12"
    ghsaId := "GHSA-jf85-cpcp-j695"
    url := "https://github.com/advisories/GHSA-jf85-cpcp-j695" }

/-- A high-severity (but not critical) Dependabot alert. -/
def sampleHighAlert : SecurityAlert :=
  { package := "minimist"
    severity := "high"
    summary := "Prototype pollution in minimist"
    description := "Versions of minimist before 1.2.6 are vulnerable."
    cve := some "CVE-2021-44906"
    vulnerableVersionRange := "< 1.2.6"
    firstPatchedVersion := some "1.2.6"
    ghsaId := "GHSA-xvch-5gv4-984h"
    url := "https://github.com/advisories/GHSA-xvch-5gv4-984h" }

/-- One aggregated report whose only finding is a single high-severity
advisory: no critical advisory and no outdated package. -/
def highOnlyReports : List RepoReport :=
  [{ repo := "gisete/laara-app", outdated := [], totalDependencies := 0,
     securityAlerts := [sampleHighAlert] }]

/-- One aggregated report whose only finding is a single critical advisory. -/
def criticalReports : List RepoReport :=
  [{ repo := "gisete/farm-store", outdated := [], totalDependencies := 0,
     securityAlerts := [sampleCriticalAlert] }]

/-- A resolved run in which every fetch succeeds and nothing is outdated or
vulnerable. -/
def envClean : Env :=
  { repos := ["gisete/sope-website"]
    manifest := fun _ => some { dependencies := [("left-pad", "1.3.0")], devDependencies := [] }
    alerts := fun _ => []
    registry := sampleRegistry
    claude := Except.ok "Everything is fine."
    shortMailOk := true
    fullMailOk := true }

/-- A resolved run with one failing manifest fetch, one open advisory, and a
failing Claude API call. -/
def envAlert : Env :=
  { repos := ["gisete/horta-edge-functions"]
    manifest := fun _ => none
    alerts := fun _ => [sampleCriticalAlert]
    registry := sampleRegistry
    claude := Except.error "Claude API error: 500"
    shortMailOk := true
    fullMailOk := true }

/-! Helper lemmas. -/

theorem recordOf_eq_some (registry : String → Option NpmInfo) (p : String × String)
    (r : DependencyRecord) :
    recordOf registry p = some r ↔
      ∃ info, registry p.1 = some info ∧ info.latest ≠ cleanVersion p.2 ∧
        r = ⟨p.1, p.2, info.latest, info.description⟩ := by
  unfold recordOf
  cases h : registry p.1 with
  | none => simp
  | some info =>
      dsimp only
      by_cases hne : info.latest = cleanVersion p.2
      · rw [if_neg (not_not_intro hne)]
        simp [hne]
      · rw [if_pos hne]
        constructor
        · intro hr
          exact ⟨info, rfl, hne, (Option.some.inj hr).symm⟩
        · rintro ⟨info', hinfo', -, hr⟩
          obtain rfl : info = info' := Option.some.inj hinfo'
          exact congrArg some hr.symm

theorem recordOf_package (registry : String → Option NpmInfo) (p : String × String)
    (r : DependencyRecord) (h : recordOf registry p = some r) : r.package = p.1 := by
  rcases (recordOf_eq_some registry p r).mp h with ⟨info, _, _, hr⟩
  subst hr
  rfl

theorem foldl_push_eq_filterMap (registry : String → Option NpmInfo) :
    ∀ (l : List (String × String)) (acc : List DependencyRecord),
      l.foldl (fun acc p =>
        match recordOf registry p with
        | some d => acc ++ [d]
        | none => acc) acc = acc ++ l.filterMap (recordOf registry) := by
  intro l
  induction l with
  | nil => intro acc; simp
  | cons p t ih =>
      intro acc
      simp only [List.foldl_cons, List.filterMap_cons]
      cases h : recordOf registry p with
      | none => simp only [h]; exact ih acc
      | some d => simp only [h, ih (acc ++ [d]), List.append_assoc, List.singleton_append]

theorem checkOutdated_outdated_eq (registry : String → Option NpmInfo)
    (packageJson : PackageJson) (repoName : String) :
    (checkOutdatedPackages registry packageJson repoName).outdated =
      (mergeDeps packageJson.dependencies packageJson.devDependencies).filterMap
        (recordOf registry) := by
  unfold checkOutdatedPackages
  simp [foldl_push_eq_filterMap]

theorem lookupVal_cons (p : String × String) (l : List (String × String)) (n : String) :
    lookupVal (p :: l) n = if p.1 = n then some p.2 else lookupVal l n := by
  unfold lookupVal
  by_cases h : p.1 = n
  · simp [List.find?_cons, h]
  · simp [List.find?_cons, h]

theorem lookupVal_eq_none_iff (l : List (String × String)) (n : String) :
    lookupVal l n = none ↔ n ∉ l.map Prod.fst := by
  unfold lookupVal
  rw [Option.map_eq_none', List.find?_eq_none]
  simp only [decide_eq_true_eq, List.mem_map, not_exists, not_and]

theorem lookupVal_mem (l : List (String × String)) (n v : String)
    (h : lookupVal l n = some v) : (n, v) ∈ l := by
  unfold lookupVal at h
  rcases Option.map_eq_some'.mp h with ⟨p, hfind, hv⟩
  have hp1 : p.1 = n := by simpa using List.find?_some hfind
  have hmem := List.mem_of_find?_eq_some hfind
  have : p = (n, v) := by
    cases p
    simp_all
  rwa [this] at hmem

theorem lookupVal_append_of_some (l₁ l₂ : List (String × String)) (n v : String)
    (h : lookupVal l₁ n = some v) : lookupVal (l₁ ++ l₂) n = some v := by
  induction l₁ with
  | nil => simp [lookupVal] at h
  | cons p t ih =>
      rw [List.cons_append, lookupVal_cons]
      rw [lookupVal_cons] at h
      by_cases hp : p.1 = n
      · rwa [if_pos hp] at h ⊢
      · rw [if_neg hp] at h ⊢
        exact ih h

theorem lookupVal_append_of_none (l₁ l₂ : List (String × String)) (n : String)
    (h : lookupVal l₁ n = none) : lookupVal (l₁ ++ l₂) n = lookupVal l₂ n := by
  induction l₁ with
  | nil => simp
  | cons p t ih =>
      rw [List.cons_append, lookupVal_cons]
      rw [lookupVal_cons] at h
      by_cases hp : p.1 = n
      · rw [if_pos hp] at h; exact absurd h (by simp)
      · rw [if_neg hp] at h ⊢
        exact ih h

theorem lookupVal_map_override (deps devDeps : List (String × String)) (n : String) :
    lookupVal (deps.map (fun p => (p.1, (lookupVal devDeps p.1).getD p.2))) n =
      (lookupVal deps n).map (fun v => (lookupVal devDeps n).getD v) := by
  induction deps with
  | nil => simp [lookupVal]
  | cons p t ih =>
      rw [List.map_cons, lookupVal_cons, lookupVal_cons]
      by_cases hp : p.1 = n
      · rw [if_pos hp, if_pos hp, hp]
        rfl
      · rw [if_neg hp, if_neg hp]
        exact ih

theorem lookupVal_filter_of_none (deps devDeps : List (String × String)) (n : String)
    (h : lookupVal deps n = none) :
    lookupVal (devDeps.filter (fun q => (lookupVal deps q.1).isNone)) n =
      lookupVal devDeps n := by
  induction devDeps with
  | nil => rfl
  | cons q t ih =>
      rw [List.filter_cons, lookupVal_cons]
      by_cases hq : q.1 = n
      · have hcond : (lookupVal deps q.1).isNone = true := by rw [hq, h]; rfl
        rw [if_pos (by simpa using hcond), lookupVal_cons, if_pos hq, if_pos hq]
      · by_cases hcond : (lookupVal deps q.1).isNone
        · rw [if_pos (by simpa using hcond), lookupVal_cons, if_neg hq, if_neg hq]
          exact ih
        · rw [if_neg (by simpa using hcond), if_neg hq]
          exact ih

theorem mergeDeps_lookup_dev (deps devDeps : List (String × String)) (n v : String)
    (h : lookupVal devDeps n = some v) :
    lookupVal (mergeDeps deps devDeps) n = some v := by
  unfold mergeDeps
  cases hdeps : lookupVal deps n with
  | some v₀ =>
      apply lookupVal_append_of_some
      rw [lookupVal_map_override, hdeps, h]
      rfl
  | none =>
      rw [lookupVal_append_of_none _ _ _ (by rw [lookupVal_map_override, hdeps]; rfl)]
      rw [lookupVal_filter_of_none _ _ _ hdeps, h]

theorem mergeDeps_lookup_reg (deps devDeps : List (String × String)) (n : String)
    (h : lookupVal devDeps n = none) :
    lookupVal (mergeDeps deps devDeps) n = lookupVal deps n := by
  unfold mergeDeps
  cases hdeps : lookupVal deps n with
  | some v₀ =>
      apply lookupVal_append_of_some
      rw [lookupVal_map_override, hdeps, h]
      rfl
  | none =>
      rw [lookupVal_append_of_none _ _ _ (by rw [lookupVal_map_override, hdeps]; rfl)]
      rw [lookupVal_filter_of_none _ _ _ hdeps, h]

theorem mergeDeps_keys (deps devDeps : List (String × String)) :
    (mergeDeps deps devDeps).map Prod.fst =
      deps.map Prod.fst ++
        (devDeps.filter (fun q => (lookupVal deps q.1).isNone)).map Prod.fst := by
  unfold mergeDeps
  rw [List.map_append, List.map_map]
  rfl

theorem mergeDeps_mem_keys (deps devDeps : List (String × String)) (n : String) :
    n ∈ (mergeDeps deps devDeps).map Prod.fst ↔
      n ∈ deps.map Prod.fst ∨ n ∈ devDeps.map Prod.fst := by
  rw [mergeDeps_keys, List.mem_append]
  constructor
  · rintro (h | h)
    · exact Or.inl h
    · rcases List.mem_map.mp h with ⟨q, hq, hfst⟩
      exact Or.inr (List.mem_map.mpr ⟨q, (List.mem_filter.mp hq).1, hfst⟩)
  · rintro (h | h)
    · exact Or.inl h
    · by_cases hdeps : n ∈ deps.map Prod.fst
      · exact Or.inl hdeps
      · rcases List.mem_map.mp h with ⟨q, hq, hfst⟩
        refine Or.inr (List.mem_map.mpr ⟨q, List.mem_filter.mpr ⟨hq, ?_⟩, hfst⟩)
        have : lookupVal deps q.1 = none := by
          rw [hfst]
          exact (lookupVal_eq_none_iff deps n).mpr hdeps
        simp [this]

theorem mergeDeps_keys_nodup (deps devDeps : List (String × String))
    (hd : (deps.map Prod.fst).Nodup) (hdd : (devDeps.map Prod.fst).Nodup) :
    ((mergeDeps deps devDeps).map Prod.fst).Nodup := by
  rw [mergeDeps_keys]
  refine List.Nodup.append hd ?_ ?_
  · exact List.Nodup.sublist (List.Sublist.map Prod.fst (List.filter_sublist devDeps)) hdd
  · intro n hn₁ hn₂
    rcases List.mem_map.mp hn₂ with ⟨q, hq, hfst⟩
    have hcond := (List.mem_filter.mp hq).2
    have hnone : lookupVal deps n = none := by
      rw [← hfst]
      simpa using hcond
    exact (lookupVal_eq_none_iff deps n).mp hnone hn₁

theorem filterMap_map_package (registry : String → Option NpmInfo) :
    ∀ l : List (String × String),
      (l.filterMap (recordOf registry)).map (fun r => r.package) =
        (l.filter (fun p => (recordOf registry p).isSome)).map Prod.fst := by
  intro l
  induction l with
  | nil => rfl
  | cons p t ih =>
      rw [List.filterMap_cons, List.filter_cons]
      cases h : recordOf registry p with
      | none => simpa [h] using ih
      | some r =>
          rw [List.map_cons, recordOf_package registry p r h, ih]
          simp [h]

theorem foldl_add_eq (f : RepoReport → Nat) :
    ∀ (l : List RepoReport) (n : Nat),
      l.foldl (fun sum r => sum + f r) n = n + (l.map f).sum := by
  intro l
  induction l with
  | nil => intro n; simp
  | cons r t ih =>
      intro n
      rw [List.foldl_cons, ih, List.map_cons, List.sum_cons]
      omega

theorem totalVulnerabilities_eq_zero (results : List RepoReport) :
    totalVulnerabilities results = 0 ↔ ∀ r ∈ results, r.securityAlerts = [] := by
  unfold totalVulnerabilities
  rw [foldl_add_eq]
  simp [List.sum_eq_zero_iff, List.length_eq_zero]

theorem totalOutdated_eq_zero (results : List RepoReport) :
    totalOutdated results = 0 ↔ ∀ r ∈ results, r.outdated = [] := by
  unfold totalOutdated
  rw [foldl_add_eq]
  simp [List.sum_eq_zero_iff, List.length_eq_zero]

theorem mem_criticalSecurityIssues (results : List RepoReport) (a : SecurityAlert) :
    a ∈ criticalSecurityIssues results ↔
      ∃ r ∈ results, a ∈ r.securityAlerts ∧
        (a.severity = "critical" ∨ a.severity = "high") := by
  unfold criticalSecurityIssues
  simp [List.mem_flatMap, List.mem_filter, and_assoc]

theorem criticalSecurityIssues_eq_nil (results : List RepoReport)
    (h : ∀ r ∈ results, ∀ a ∈ r.securityAlerts,
      a.severity ≠ "critical" ∧ a.severity ≠ "high") :
    criticalSecurityIssues results = [] := by
  rw [List.eq_nil_iff_forall_not_mem]
  intro a ha
  rcases (mem_criticalSecurityIssues results a).mp ha with ⟨r, hr, hmem, hsev⟩
  rcases hsev with h1 | h1
  · exact (h r hr a hmem).1 h1
  · exact (h r hr a hmem).2 h1

theorem cleanVersion_mk_cons (c : Char) (l : List Char) :
    cleanVersion (String.mk (c :: l)) =
      if c = '^' ∨ c = '~' then String.mk l else String.mk (c :: l) := rfl

theorem criticalSecurityIssues_eq_nil_of_noVuln (results : List RepoReport)
    (h : totalVulnerabilities results = 0) : criticalSecurityIssues results = [] := by
  rw [List.eq_nil_iff_forall_not_mem]
  intro a ha
  rcases (mem_criticalSecurityIssues results a).mp ha with ⟨r, hr, hmem, -⟩
  rw [(totalVulnerabilities_eq_zero results).mp h r hr] at hmem
  exact List.not_mem_nil a hmem

theorem runMain_aiCalled_of_not_clean (env : Env)
    (h : ¬(totalVulnerabilities (runResults env) = 0 ∧
      totalOutdated (runResults env) = 0)) :
    (runMain env).aiCalled = true := by
  simp only [runMain]
  rw [if_neg h]
  cases hc : env.claude with
  | error e => rfl
  | ok a =>
      dsimp only
      cases hb : env.fullMailOk <;> simp [hb]

/-! Claim theorems. -/

/-- C8: Version normalization strips a leading caret or tilde range marker
and leaves marker-free strings unchanged: prepending a caret or a tilde to
any string is undone by `cleanVersion`, a string whose first character is
neither marker is returned unchanged, and in particular `^1.2.3` and
`~1.2.3` both normalize to `1.2.3` while bare `1.2.3` normalizes to
itself. -/
theorem cleanVersion_strips_one_marker :
    (∀ s : String, cleanVersion ("^" ++ s) = s) ∧
    (∀ s : String, cleanVersion ("~" ++ s) = s) ∧
    (∀ v : String, v.data.head? ≠ some '^' → v.data.head? ≠ some '~' →
      cleanVersion v = v) ∧
    cleanVersion "^1.2.3" = "1.2.3" ∧ cleanVersion "~1.2.3" = "1.2.3" ∧
    cleanVersion "1.2.3" = "1.2.3" := by
  refine ⟨?_, ?_, ?_, by decide, by decide, by decide⟩
  · intro s
    cases s with
    | mk l => rfl
  · intro s
    cases s with
    | mk l => rfl
  · intro v h1 h2
    cases v with
    | mk l =>
        cases l with
        | nil => rfl
        | cons c t =>
            have hc1 : c ≠ '^' := fun hc => h1 (by simp [hc])
            have hc2 : c ≠ '~' := fun hc => h2 (by simp [hc])
            have hno : ¬(c = '^' ∨ c = '~') := by
              rintro (h | h)
              exacts [hc1 h, hc2 h]
            rw [cleanVersion_mk_cons, if_neg hno]

/-- C8 witness: `1.2.3` starts with no range marker and is returned
unchanged. -/
theorem cleanVersion_strips_one_marker_witness : cleanVersion "1.2.3" = "1.2.3" :=
  cleanVersion_strips_one_marker.2.2.1 "1.2.3" (by decide) (by decide)

/-- C9: Version normalization removes at most one leading marker character:
on a version starting with two markers only the first is stripped, so the
compared value still begins with a marker; in particular `^~1.2.3` cleans to
`~1.2.3` and `^^1.2.3` cleans to `^1.2.3`. -/
theorem cleanVersion_strips_at_most_one :
    (∀ (c₁ c₂ : Char) (l : List Char), c₁ = '^' ∨ c₁ = '~' →
      cleanVersion (String.mk (c₁ :: c₂ :: l)) = String.mk (c₂ :: l)) ∧
    (∀ (c₁ c₂ : Char) (l : List Char), c₁ = '^' ∨ c₁ = '~' → c₂ = '^' ∨ c₂ = '~' →
      (cleanVersion (String.mk (c₁ :: c₂ :: l))).data.head? = some c₂) ∧
    cleanVersion "^~1.2.3" = "~1.2.3" ∧ cleanVersion "^^1.2.3" = "^1.2.3" := by
  have hstrip : ∀ (c₁ c₂ : Char) (l : List Char), c₁ = '^' ∨ c₁ = '~' →
      cleanVersion (String.mk (c₁ :: c₂ :: l)) = String.mk (c₂ :: l) := by
    intro c₁ c₂ l h
    rw [cleanVersion_mk_cons, if_pos h]
  refine ⟨hstrip, ?_, by decide, by decide⟩
  intro c₁ c₂ l h1 _
  rw [hstrip c₁ c₂ l h1]
  rfl

/-- C9 witness: stripping `^~1.2.3` leaves the tilde in place. -/
theorem cleanVersion_strips_at_most_one_witness :
    cleanVersion (String.mk ('^' :: '~' :: ['1', '.', '2'])) =
      String.mk ('~' :: ['1', '.', '2']) :=
  cleanVersion_strips_at_most_one.1 '^' '~' ['1', '.', '2'] (Or.inl rfl)

/-- C4: Any registry lookup failure — a network error or a response with a
non-success status — resolves to `none` rather than an error: the embedded
`getNpmPackageInfo` is a total function into `Option NpmInfo` (the promise
executor never calls reject), and it returns `none` on every non-200 status
and on a network error. -/
theorem getNpmPackageInfo_failure_eq_none :
    (∀ (status : Nat) (body : NpmInfo), status ≠ 200 →
      getNpmPackageInfo (.response status body) = none) ∧
    getNpmPackageInfo .netError = none := by
  refine ⟨?_, rfl⟩
  intro s b h
  simp [getNpmPackageInfo, h]

/-- C4 witness: a 404 response resolves to `none`. -/
theorem getNpmPackageInfo_failure_eq_none_witness :
    getNpmPackageInfo (.response 404 sampleInfo) = none :=
  getNpmPackageInfo_failure_eq_none.1 404 sampleInfo (by decide)

/-- C3: For every configured repository whose manifest fetch fails, a report
with zero dependency records, zero total dependencies, and exactly the
independently fetched advisories still appears in the aggregated results. -/
theorem failed_manifest_still_reported (env : Env) (repo : String)
    (h₁ : repo ∈ env.repos) (h₂ : env.manifest repo = none) :
    ({ repo := repo, outdated := [], totalDependencies := 0,
       securityAlerts := env.alerts repo } : RepoReport) ∈ runResults env := by
  unfold runResults
  refine List.mem_map.mpr ⟨repo, h₁, ?_⟩
  unfold processRepo
  rw [h₂]

/-- C3 witness: in `envAlert` the manifest fetch fails but the repository
still appears with its one advisory. -/
theorem failed_manifest_still_reported_witness :
    ({ repo := "gisete/horta-edge-functions", outdated := [],
       totalDependencies := 0,
       securityAlerts := envAlert.alerts "gisete/horta-edge-functions" } :
      RepoReport) ∈ runResults envAlert :=
  failed_manifest_still_reported envAlert "gisete/horta-edge-functions"
    (by decide) rfl

/-- C6: When the run is on the needs-analysis path and the Claude call
returns a failure, the run aborts: the Claude API was invoked, no email is
dispatched, and the process exits with status 1. -/
theorem claude_failure_aborts_run (env : Env) (e : String)
    (hclaude : env.claude = Except.error e)
    (h : ¬(totalVulnerabilities (runResults env) = 0 ∧
      totalOutdated (runResults env) = 0)) :
    (runMain env).exitCode = 1 ∧ (runMain env).emailsSent = [] ∧
      (runMain env).aiCalled = true := by
  simp only [runMain]
  rw [if_neg h, hclaude]
  exact ⟨rfl, rfl, rfl⟩

/-- C6 witness: `envAlert` has one advisory and a failing Claude call, so
the run exits 1 with no email. -/
theorem claude_failure_aborts_run_witness :
    (runMain envAlert).exitCode = 1 ∧ (runMain envAlert).emailsSent = [] ∧
      (runMain envAlert).aiCalled = true :=
  claude_failure_aborts_run envAlert "Claude API error: 500" rfl (by decide)

/-- C1: For every entry of the merged manifest mapping, the comparator
records a `DependencyRecord` for that name, carrying the raw declared
version and the registry latest, if and only if the registry has data for
the package and the registry latest differs, as a plain string, from the
declared version after normalization. -/
theorem checkOutdated_records_iff (registry : String → Option NpmInfo)
    (packageJson : PackageJson) (repoName name cur : String)
    (hmem : (name, cur) ∈
      mergeDeps packageJson.dependencies packageJson.devDependencies) :
    (∃ r ∈ (checkOutdatedPackages registry packageJson repoName).outdated,
        r.package = name ∧ r.current = cur ∧
        ∃ info, registry name = some info ∧ r.latest = info.latest ∧
          r.description = info.description) ↔
      ∃ info, registry name = some info ∧ info.latest ≠ cleanVersion cur := by
  rw [checkOutdated_outdated_eq]
  constructor
  · rintro ⟨r, hr, hpkg, hcur, -⟩
    rcases List.mem_filterMap.mp hr with ⟨p, _, hrec⟩
    rcases (recordOf_eq_some registry p r).mp hrec with ⟨info₀, hreg₀, hne, hrEq⟩
    subst hrEq
    have h1 : p.1 = name := hpkg
    have h2 : p.2 = cur := hcur
    rw [h1] at hreg₀
    rw [← h2]
    exact ⟨info₀, hreg₀, hne⟩
  · rintro ⟨info, hreg, hne⟩
    refine ⟨⟨name, cur, info.latest, info.description⟩,
      List.mem_filterMap.mpr ⟨(name, cur), hmem,
        (recordOf_eq_some registry (name, cur) _).mpr ⟨info, hreg, hne, rfl⟩⟩,
      rfl, rfl, info, hreg, rfl, rfl⟩

/-- C1 witness: manifest entry `left-pad ^1.0.0` against registry latest
`1.3.0` produces exactly one record carrying current `^1.0.0` and latest
`1.3.0`. -/
theorem checkOutdated_records_iff_witness :
    (∃ r ∈ (checkOutdatedPackages sampleRegistry samplePackageJson
        "gisete/sope-website").outdated,
      r.package = "left-pad" ∧ r.current = "^1.0.0" ∧
      ∃ info, sampleRegistry "left-pad" = some info ∧ r.latest = info.latest ∧
        r.description = info.description) ∧
    (checkOutdatedPackages sampleRegistry samplePackageJson
      "gisete/sope-website").outdated.length = 1 :=
  ⟨(checkOutdated_records_iff sampleRegistry samplePackageJson
      "gisete/sope-website" "left-pad" "^1.0.0" (by decide)).mpr
    ⟨sampleInfo, by decide, by decide⟩, by decide⟩

/-- C7: With unique keys in each group, the merged mapping has unique keys,
its key set is the union of the key sets of the two groups, a development entry
overrides a same-named regular entry (the development value wins), and a
name with no development entry keeps its regular value. -/
theorem mergeDeps_is_overriding_union (deps devDeps : List (String × String))
    (hd : (deps.map Prod.fst).Nodup) (hdd : (devDeps.map Prod.fst).Nodup) :
    ((mergeDeps deps devDeps).map Prod.fst).Nodup ∧
    (∀ n : String, n ∈ (mergeDeps deps devDeps).map Prod.fst ↔
      n ∈ deps.map Prod.fst ∨ n ∈ devDeps.map Prod.fst) ∧
    (∀ n v, lookupVal devDeps n = some v →
      lookupVal (mergeDeps deps devDeps) n = some v) ∧
    (∀ n, lookupVal devDeps n = none →
      lookupVal (mergeDeps deps devDeps) n = lookupVal deps n) :=
  ⟨mergeDeps_keys_nodup deps devDeps hd hdd,
   fun n => mergeDeps_mem_keys deps devDeps n,
   fun n v h => mergeDeps_lookup_dev deps devDeps n v h,
   fun n h => mergeDeps_lookup_reg deps devDeps n h⟩

/-- C7 witness: merging two two-entry groups sharing the key `b` keeps the
keys unique and lets the development value for `b` win. -/
theorem mergeDeps_is_overriding_union_witness :
    ((mergeDeps [("a", "1.0.0"), ("b", "2.0.0")]
        [("b", "3.0.0"), ("c", "4.0.0")]).map Prod.fst).Nodup ∧
    lookupVal (mergeDeps [("a", "1.0.0"), ("b", "2.0.0")]
        [("b", "3.0.0"), ("c", "4.0.0")]) "b" = some "3.0.0" :=
  ⟨(mergeDeps_is_overriding_union [("a", "1.0.0"), ("b", "2.0.0")]
      [("b", "3.0.0"), ("c", "4.0.0")] (by decide) (by decide)).1,
   (mergeDeps_is_overriding_union [("a", "1.0.0"), ("b", "2.0.0")]
      [("b", "3.0.0"), ("c", "4.0.0")] (by decide) (by decide)).2.2.1
     "b" "3.0.0" (by decide)⟩

/-- C10: With unique keys in each group, the comparator result satisfies:
`totalDependencies` is the number of distinct names in the merged mapping,
the outdated records number at most `totalDependencies`, the outdated
records carry pairwise distinct package names, and the name of every record
is a key of the merged mapping. -/
theorem checkOutdated_invariants (registry : String → Option NpmInfo)
    (packageJson : PackageJson) (repoName : String)
    (hd : (packageJson.dependencies.map Prod.fst).Nodup)
    (hdd : (packageJson.devDependencies.map Prod.fst).Nodup) :
    (checkOutdatedPackages registry packageJson repoName).totalDependencies =
      ((mergeDeps packageJson.dependencies
        packageJson.devDependencies).map Prod.fst).dedup.length ∧
    (checkOutdatedPackages registry packageJson repoName).outdated.length ≤
      (checkOutdatedPackages registry packageJson repoName).totalDependencies ∧
    ((checkOutdatedPackages registry packageJson repoName).outdated.map
      (fun r => r.package)).Nodup ∧
    (∀ r ∈ (checkOutdatedPackages registry packageJson repoName).outdated,
      r.package ∈ (mergeDeps packageJson.dependencies
        packageJson.devDependencies).map Prod.fst) := by
  have hnodup := mergeDeps_keys_nodup packageJson.dependencies
    packageJson.devDependencies hd hdd
  refine ⟨?_, ?_, ?_, ?_⟩
  · rw [List.Nodup.dedup hnodup, List.length_map]
    rfl
  · rw [checkOutdated_outdated_eq]
    exact List.length_filterMap_le _ _
  · rw [checkOutdated_outdated_eq, filterMap_map_package]
    exact List.Nodup.sublist
      (List.Sublist.map Prod.fst (List.filter_sublist _)) hnodup
  · intro r hr
    rw [checkOutdated_outdated_eq] at hr
    rcases List.mem_filterMap.mp hr with ⟨p, hp, hrec⟩
    rw [recordOf_package registry p r hrec]
    exact List.mem_map.mpr ⟨p, hp, rfl⟩

/-- C10 witness: on the `left-pad` scenario the one outdated record respects
the count and distinctness invariants. -/
theorem checkOutdated_invariants_witness :
    (checkOutdatedPackages sampleRegistry samplePackageJson
      "gisete/sope-website").outdated.length ≤
      (checkOutdatedPackages sampleRegistry samplePackageJson
        "gisete/sope-website").totalDependencies :=
  (checkOutdated_invariants sampleRegistry samplePackageJson
    "gisete/sope-website" (by decide) (by decide)).2.1

/-- C2: Provided the short email dispatch resolves, the run takes the
all-clean branch — exactly the short up-to-date email, no Claude call, exit
code 0 — if and only if the total advisory count and the total outdated
count over all reports are both zero; when either total is nonzero the
Claude API is invoked, and on its success with a resolving dispatch the one
full-report email is sent and the run exits 0. -/
theorem allClean_branch_iff (env : Env) (hshort : env.shortMailOk = true) :
    ((totalVulnerabilities (runResults env) = 0 ∧
        totalOutdated (runResults env) = 0) ↔
      ((runMain env).aiCalled = false ∧
        (runMain env).emailsSent = [allCleanSubject] ∧
        (runMain env).exitCode = 0)) ∧
    (¬(totalVulnerabilities (runResults env) = 0 ∧
        totalOutdated (runResults env) = 0) →
      (runMain env).aiCalled = true ∧
      (∀ a, env.claude = Except.ok a → env.fullMailOk = true →
        (runMain env).emailsSent = [emailSubject (runResults env)] ∧
          (runMain env).exitCode = 0)) := by
  constructor
  · constructor
    · intro hz
      simp only [runMain]
      rw [if_pos hz]
      simp [hshort]
    · intro htrace
      by_contra hz
      have hai := runMain_aiCalled_of_not_clean env hz
      rw [htrace.1] at hai
      exact Bool.false_ne_true hai
  · intro hnz
    refine ⟨runMain_aiCalled_of_not_clean env hnz, ?_⟩
    intro a hok hfull
    simp only [runMain]
    rw [if_neg hnz, hok]
    simp [hfull]

/-- C2 witness: a run whose one repository is fully up to date and secure
sends exactly the short email, calls no AI, and exits 0. -/
theorem allClean_branch_iff_witness :
    (runMain envClean).aiCalled = false ∧
    (runMain envClean).emailsSent = [allCleanSubject] ∧
    (runMain envClean).exitCode = 0 :=
  (allClean_branch_iff envClean rfl).1.mp (by decide)

/-- C5 counterexample: a report set whose only advisory has severity `high`
contains no critical advisory, yet the subject is the critical-security
alert, not the any-vulnerabilities subject the claimed priority order
critical > any > outdated-only > none would assign. -/
theorem emailSubject_high_counterexample :
    (∀ r ∈ highOnlyReports, ∀ a ∈ r.securityAlerts, a.severity ≠ "critical") ∧
    totalVulnerabilities highOnlyReports = 1 ∧
    totalOutdated highOnlyReports = 0 ∧
    emailSubject highOnlyReports =
      "🚨 SECURITY ALERT: 1 Critical Vulnerabilities" ∧
    emailSubject highOnlyReports ≠
      "⚠️ Security Update: 1 Vulnerabilities Found" := by
  decide

/-- C5 (amended): The subject reflects the most severe condition in the
priority order critical-or-high vulnerabilities > any vulnerabilities >
outdated-only > none; in particular any critical advisory forces the
security-alert subject even with zero outdated packages. -/
theorem emailSubject_priority (results : List RepoReport) :
    ((∃ r ∈ results, ∃ a ∈ r.securityAlerts,
        a.severity = "critical" ∨ a.severity = "high") →
      emailSubject results = "🚨 SECURITY ALERT: " ++
        toString (criticalSecurityIssues results).length ++
        " Critical Vulnerabilities") ∧
    ((∀ r ∈ results, ∀ a ∈ r.securityAlerts,
        a.severity ≠ "critical" ∧ a.severity ≠ "high") →
      totalVulnerabilities results > 0 →
      emailSubject results = "⚠️ Security Update: " ++
        toString (totalVulnerabilities results) ++ " Vulnerabilities Found") ∧
    (totalVulnerabilities results = 0 → totalOutdated results > 0 →
      emailSubject results = "📦 " ++ toString (totalOutdated results) ++
        " Package Updates Available") ∧
    (totalVulnerabilities results = 0 → totalOutdated results = 0 →
      emailSubject results = "📦 Monthly Dependency Report") := by
  refine ⟨?_, ?_, ?_, ?_⟩
  · rintro ⟨r, hr, a, ha, hsev⟩
    have hmem : a ∈ criticalSecurityIssues results :=
      (mem_criticalSecurityIssues results a).mpr ⟨r, hr, ha, hsev⟩
    have hpos : 0 < (criticalSecurityIssues results).length :=
      List.length_pos.mpr (List.ne_nil_of_mem hmem)
    unfold emailSubject
    rw [if_pos hpos]
  · intro hnone hv
    have hnil := criticalSecurityIssues_eq_nil results hnone
    unfold emailSubject
    rw [hnil]
    simp only [List.length_nil, gt_iff_lt, lt_irrefl, if_false]
    rw [if_pos hv]
  · intro hv ho
    have hnil := criticalSecurityIssues_eq_nil_of_noVuln results hv
    unfold emailSubject
    rw [hnil, hv]
    simp only [List.length_nil, gt_iff_lt, lt_irrefl, if_false]
    rw [if_pos ho]
  · intro hv ho
    have hnil := criticalSecurityIssues_eq_nil_of_noVuln results hv
    unfold emailSubject
    rw [hnil, hv, ho]
    simp

/-- C5 witness: one critical advisory and zero outdated packages force the
security-alert subject. -/
theorem emailSubject_priority_witness :
    emailSubject criticalReports = "🚨 SECURITY ALERT: " ++
      toString (criticalSecurityIssues criticalReports).length ++
      " Critical Vulnerabilities" :=
  (emailSubject_priority criticalReports).1 (by decide)

end DepMonitor
